import Mathlib

/-!
Verification of the Open Inbox extraction pipeline (src/main.py).

The definitions below are a shallow embedding of the program: Python strings
become `String` / `List Char`, `None` becomes `Option.none`, dictionaries
become association lists, and the `datetime` values produced by
`datetime.strptime` become the `DateTime` structure.  Each definition carries
the name of the Python function it embeds.
-/

namespace OpenInbox

/-- Python `str.isspace` for the ASCII whitespace characters (`\s` of the
`re` module): space, tab, newline, carriage return, vertical tab, form feed. -/
def isPySpace (c : Char) : Bool :=
  c == ' ' || c == '\t' || c == '\n' || c == '\r' || c == '\x0b' || c == '\x0c'

/-- Drop the longest run of characters satisfying `p` from the end of `l`. -/
def dropTrailing (p : Char → Bool) (l : List Char) : List Char :=
  (l.reverse.dropWhile p).reverse

/-- Python `str.strip()` on a list of characters. -/
def pyStrip (l : List Char) : List Char :=
  dropTrailing isPySpace (l.dropWhile isPySpace)

/-- Python `str.strip('"')` on a list of characters. -/
def pyStripQuotes (l : List Char) : List Char :=
  dropTrailing (· == '"') (l.dropWhile (· == '"'))

/-- Python `str.title()` for ASCII: a letter is uppercased when the previous
character is not a letter, lowercased otherwise.  `prevCased` records whether
the previous character was a letter. -/
def pyTitleGo (prevCased : Bool) : List Char → List Char
  | [] => []
  | c :: rest =>
      let c2 := if c.isAlpha then (if prevCased then c.toLower else c.toUpper) else c
      c2 :: pyTitleGo c.isAlpha rest

/-- Python `str.title()`. -/
def pyTitle (l : List Char) : List Char := pyTitleGo false l

/-- Python truthiness of an optional string: `None` and `""` are falsy. -/
def truthy : Option String → Bool
  | none => false
  | some s => s ≠ ""

/-- `[^>]+@[^>]+` over the content between `<` and `>`: some `@` occurs at an
interior position (at least one character on each side). -/
def hasInteriorAt (c : List Char) : Bool :=
  ((c.drop 1).dropLast).contains '@'

/-- The regex `^(.*?)\s*<([^>]+@[^>]+)>$` of `parse_person_string`, applied to
the stripped string `acc.reverse ++ rest`.  The non-greedy `(.*?)` makes the
engine take the earliest `<` whose bracketed content reaches the final `>`
with no `>` inside and an `@` strictly inside; group 1 is the text before that
`<` with the `\s*` run removed from its end, group 2 is the content. -/
def nameEmailScan (acc : List Char) : List Char → Option (List Char × List Char)
  | [] => none
  | c :: rest =>
      if c == '<' && rest.getLast? == some '>' &&
          !(rest.dropLast.contains '>') && hasInteriorAt rest.dropLast then
        some (dropTrailing isPySpace acc.reverse, rest.dropLast)
      else
        nameEmailScan (c :: acc) rest

/-- Embeds `OpenInbox.parse_person_string` (src/main.py:339-359): parse a
person string that might contain a name and/or an email.  The first component
is the email (Python `None` = `none`), the second the name. -/
def parse_person_string (person_str : String) : Option String × Option String :=
  if person_str = "" then (none, none)
  else
    match nameEmailScan [] (pyStrip person_str.data) with
    | some (g1, g2) =>
        (some (String.mk (pyStrip g2)), some (String.mk (pyStripQuotes (pyStrip g1))))
    | none =>
        if person_str.data.contains '@' then
          let email := pyStrip person_str.data
          let localPart := email.takeWhile (· != '@')
          let name := pyTitle (localPart.map (fun c => if c == '.' || c == '_' then ' ' else c))
          (some (String.mk email), some (String.mk name))
        else
          (none, some (String.mk (pyStrip person_str.data)))

/-- A parsed timestamp, the result of `datetime.strptime`. -/
structure DateTime where
  year : Nat
  month : Nat
  day : Nat
  hour : Nat
  minute : Nat
  second : Nat
  microsecond : Nat
deriving DecidableEq, Repr

/-- One token of a compiled `strptime` format string: a literal character
(matched case-insensitively, as `_strptime` compiles with `IGNORECASE`), a
whitespace run (compiled to `\s+`), or a `%` directive. -/
inductive FmtTok where
  | lit (c : Char)
  | ws
  | dY | dm | dd | dH | dI | dM | dS | df | dA | dB | db | dp
deriving DecidableEq, Repr

/-- The directive table of `_strptime.TimeRE`, restricted to the directives
used by the source's format list; a directive outside this subset raises
`ValueError` in Python, which the caller turns into a parse failure. -/
def dirOf : Char → Option FmtTok
  | 'Y' => some .dY
  | 'm' => some .dm
  | 'd' => some .dd
  | 'H' => some .dH
  | 'I' => some .dI
  | 'M' => some .dM
  | 'S' => some .dS
  | 'f' => some .df
  | 'A' => some .dA
  | 'B' => some .dB
  | 'b' => some .db
  | 'p' => some .dp
  | '%' => some (.lit '%')
  | _ => none

/-- Collapse adjacent whitespace tokens: `_strptime.TimeRE.pattern` replaces
every whitespace run of the format with a single `\s+`. -/
def mergeWs : List FmtTok → List FmtTok
  | [] => []
  | .ws :: rest =>
      match mergeWs rest with
      | .ws :: out => .ws :: out
      | out => .ws :: out
  | t :: rest => t :: mergeWs rest

/-- Per-character tokenization of a format string; a whitespace character
becomes one `ws` token (runs are merged afterwards), `%x` becomes the
directive's sub-regex, other characters become (escaped) literals. -/
def compileFmt0 : List Char → Option (List FmtTok)
  | [] => some []
  | '%' :: rest =>
      match rest with
      | [] => none
      | c :: rest2 =>
          match dirOf c, compileFmt0 rest2 with
          | some t, some ts => some (t :: ts)
          | _, _ => none
  | c :: rest =>
      match compileFmt0 rest with
      | some ts => some ((if isPySpace c then FmtTok.ws else FmtTok.lit c) :: ts)
      | none => none

/-- Compile a format string to tokens, as `_strptime.TimeRE.pattern` does:
whitespace runs become `\s+`, `%x` becomes the directive's sub-regex, other
characters become (escaped) literals.  `none` models the `ValueError` Python
raises for a bad or stray `%` directive. -/
def compileFmt (l : List Char) : Option (List FmtTok) :=
  match compileFmt0 l with
  | some ts => some (mergeWs ts)
  | none => none

/-- The fields collected while matching, before `_strptime` assembles the
`datetime`; `none` = the directive did not occur. -/
structure ParseAcc where
  year : Option Nat := none
  month : Option Nat := none
  day : Option Nat := none
  hour24 : Option Nat := none
  hour12 : Option Nat := none
  pm : Option Bool := none
  minute : Option Nat := none
  second : Option Nat := none
  usec : Option Nat := none
deriving Repr

def digitVal (c : Char) : Nat := c.toNat - 48

/-- Case-insensitive match of the (lowercase) word `w` against the front of `s`. -/
def ciPre (w : List Char) (s : List Char) : Bool :=
  match w, s with
  | [], _ => true
  | _ :: _, [] => false
  | a :: w2, b :: s2 => a == b.toLower && ciPre w2 s2

def monthNames : List (String × Nat) :=
  [("january", 1), ("february", 2), ("march", 3), ("april", 4), ("may", 5),
   ("june", 6), ("july", 7), ("august", 8), ("september", 9), ("october", 10),
   ("november", 11), ("december", 12)]

def monthAbbrevs : List (String × Nat) :=
  [("jan", 1), ("feb", 2), ("mar", 3), ("apr", 4), ("may", 5), ("jun", 6),
   ("jul", 7), ("aug", 8), ("sep", 9), ("oct", 10), ("nov", 11), ("dec", 12)]

def weekdayNames : List String :=
  ["monday", "tuesday", "wednesday", "thursday", "friday", "saturday", "sunday"]

/-- Alternatives for a two-digits-preferred numeric directive whose regex is an
alternation like `(1[0-2]|0[1-9]|[1-9])`: the candidates `(consumed, value)`
in the order the regex engine tries them.  `two` decides whether a given
two-digit value is accepted by one of the two-digit alternatives. -/
def numAlts (two : Nat → Bool) (one : Nat → Bool) (s : List Char) : List (Nat × Nat) :=
  let twoDigit : List (Nat × Nat) :=
    match s with
    | a :: b :: _ =>
        if a.isDigit && b.isDigit && two (digitVal a * 10 + digitVal b) then
          [(2, digitVal a * 10 + digitVal b)]
        else []
    | _ => []
  let oneDigit : List (Nat × Nat) :=
    match s with
    | a :: _ => if a.isDigit && one (digitVal a) then [(1, digitVal a)] else []
    | _ => []
  twoDigit ++ oneDigit

/-- Match the names of `tbl` (case-insensitively) against the front of `s`,
giving `(consumed, value)` candidates; the names are mutually prefix-free, so
at most one matches. -/
def nameAlts (tbl : List (String × Nat)) (s : List Char) : List (Nat × Nat) :=
  tbl.filterMap (fun p => if ciPre p.1.data s then some (p.1.length, p.2) else none)

/-- The ordered `(characters consumed, updated fields)` candidates of one
token against the front of `s` — the alternation order of the regex
`_strptime` compiles, greedy alternatives first. -/
def tokenAlts (t : FmtTok) (s : List Char) (acc : ParseAcc) : List (Nat × ParseAcc) :=
  match t with
  | .lit c =>
      match s with
      | b :: _ => if b.toLower == c.toLower then [(1, acc)] else []
      | [] => []
  | .ws =>
      -- `\s+`: greedy, longest whitespace run first, at least one character
      let n := (s.takeWhile isPySpace).length
      (List.range n).map (fun i => (n - i, acc))
  | .dY =>
      -- `(?P<Y>\d\d\d\d)`
      match s with
      | a :: b :: c :: d :: _ =>
          if a.isDigit && b.isDigit && c.isDigit && d.isDigit then
            [(4, { acc with year := some (digitVal a * 1000 + digitVal b * 100 + digitVal c * 10 + digitVal d) })]
          else []
      | _ => []
  | .dm => (numAlts (fun v => 1 ≤ v && v ≤ 12) (fun v => 1 ≤ v) s).map
      (fun p => (p.1, { acc with month := some p.2 }))
  | .dd => (numAlts (fun v => 1 ≤ v && v ≤ 31) (fun v => 1 ≤ v) s).map
      (fun p => (p.1, { acc with day := some p.2 }))
  | .dH => (numAlts (fun v => v ≤ 23) (fun _ => true) s).map
      (fun p => (p.1, { acc with hour24 := some p.2 }))
  | .dI => (numAlts (fun v => 1 ≤ v && v ≤ 12) (fun v => 1 ≤ v) s).map
      (fun p => (p.1, { acc with hour12 := some p.2 }))
  | .dM => (numAlts (fun v => v ≤ 59) (fun _ => true) s).map
      (fun p => (p.1, { acc with minute := some p.2 }))
  | .dS => (numAlts (fun v => v ≤ 61) (fun _ => true) s).map
      (fun p => (p.1, { acc with second := some p.2 }))
  | .df =>
      -- `(?P<f>[0-9]{1,6})`, greedy; the value is zero-padded to microseconds
      let n := min 6 (s.takeWhile Char.isDigit).length
      (List.range n).map (fun i =>
        let k := n - i
        let digits := s.take k
        let v := digits.foldl (fun a c => a * 10 + digitVal c) 0
        (k, { acc with usec := some (v * 10 ^ (6 - k)) }))
  | .dA => (weekdayNames.filterMap (fun w =>
      if ciPre w.data s then some (w.length, acc) else none))
  | .dB => (nameAlts monthNames s).map (fun p => (p.1, { acc with month := some p.2 }))
  | .db => (nameAlts monthAbbrevs s).map (fun p => (p.1, { acc with month := some p.2 }))
  | .dp =>
      (if ciPre "am".data s then [(2, { acc with pm := some false })] else []) ++
      (if ciPre "pm".data s then [(2, { acc with pm := some true })] else [])

/-- Match compiled tokens against the front of `s` with the regex engine's
backtracking: a token's alternatives are tried in order, and the first one
whose continuation succeeds wins.  Returns the collected fields and the
unconsumed rest of the input (Python's `re.match` is not anchored at the
end).  `fuel` only bounds the recursion depth; one token is consumed per
step, so any `fuel > toks.length` is enough and never runs out. -/
def matchToks : Nat → List FmtTok → List Char → ParseAcc →
    Option (ParseAcc × List Char)
  | 0, _, _, _ => none
  | _ + 1, [], s, acc => some (acc, s)
  | fuel + 1, t :: ts, s, acc =>
      (tokenAlts t s acc).findSome? (fun p => matchToks fuel ts (s.drop p.1) p.2)

/-- Days in a month, with the Gregorian leap rule — the validation
`datetime.date` performs when `_strptime` builds the result. -/
def daysInMonth (y m : Nat) : Nat :=
  if m = 2 then
    if y % 4 = 0 && (y % 100 ≠ 0 || y % 400 = 0) then 29 else 28
  else if m = 4 || m = 6 || m = 9 || m = 11 then 30
  else 31

/-- Assemble the `datetime` from the matched fields, with `_strptime`'s
defaults (1900-01-01 00:00:00) and 12-hour conversion, and the range checks
of the `datetime` constructor. -/
def buildDateTime (acc : ParseAcc) : Option DateTime :=
  let y := acc.year.getD 1900
  let m := acc.month.getD 1
  let d := acc.day.getD 1
  let hour :=
    match acc.hour24 with
    | some h => h
    | none =>
        match acc.hour12 with
        | none => 0
        | some h12 =>
            match acc.pm with
            | some true => if h12 != 12 then h12 + 12 else 12
            | _ => if h12 = 12 then 0 else h12
  let mi := acc.minute.getD 0
  let sec := acc.second.getD 0
  let us := acc.usec.getD 0
  if 1 ≤ y && 1 ≤ m && m ≤ 12 && 1 ≤ d && d ≤ daysInMonth y m && sec ≤ 59 then
    some ⟨y, m, d, hour, mi, sec, us⟩
  else
    none

/-- Embeds `datetime.strptime(data_string, format)` for the directive subset
above: compile the format, match it against the whole input (a match that
leaves unconverted data is an error), then assemble and validate.  `none`
models every `ValueError`. -/
def strptime (data fmt : String) : Option DateTime :=
  match compileFmt fmt.data with
  | none => none
  | some toks =>
      match matchToks (toks.length + 1) toks data.data {} with
      | none => none
      | some (acc, rest) => if rest = [] then buildDateTime acc else none

/-- The format list of `OpenInbox.parse_date_string` (src/main.py:387-417),
in source order. -/
def dateFormats : List String :=
  ["%Y-%m-%dT%H:%M:%S.%fZ",
   "%Y-%m-%dT%H:%M:%SZ",
   "%Y-%m-%dT%H:%M:%S",
   "%A, %B %d, %Y %I:%M %p",
   "%A, %B %d, %Y %I:%M:%S %p",
   "%A, %b %d, %Y %I:%M %p",
   "%B %d, %Y %I:%M %p",
   "%b %d, %Y %I:%M %p",
   "%Y-%m-%d %H:%M:%S",
   "%Y-%m-%d %H:%M",
   "%Y-%m-%d",
   "%m/%d/%Y %H:%M:%S",
   "%m/%d/%Y %H:%M",
   "%m/%d/%Y",
   "%d/%m/%Y %H:%M:%S",
   "%d/%m/%Y %H:%M",
   "%d/%m/%Y",
   "%B %d, %Y",
   "%b %d, %Y",
   "%d %B %Y",
   "%d %b %Y",
   "%Y/%m/%d",
   "%m-%d-%Y",
   "%d-%m-%Y"]

/-- Embeds `OpenInbox.parse_date_string` (src/main.py:381-434): empty input is
`None`; a non-"auto" hint is tried first; then the fixed format list, first
success wins; `None` when nothing matches. -/
def parse_date_string (date_str : String) (format_hint : String) : Option DateTime :=
  if date_str = "" then none
  else if format_hint ≠ "auto" then
    match strptime date_str format_hint with
    | some d => some d
    | none => dateFormats.findSome? (strptime date_str)
  else
    dateFormats.findSome? (strptime date_str)

/-! ### Regex header scanning (`extract_email_metadata_from_text` and helpers) -/

def isCRLF (c : Char) : Bool := c == '\r' || c == '\n'

/-- After a matched label, the tail `\s*([^\r\n]+)` of a labeled header
pattern such as `From:\s*([^\r\n]+)`: greedy `\s*`, then the captured group is
the longest run without CR/LF.  When everything after the label is whitespace
the engine backtracks `\s*` to the last position holding a non-CR/LF
character (a space or tab) so the group still gets one. -/
def wsCapture (r : List Char) : Option (List Char) :=
  match r with
  | [] => none
  | c :: rest =>
      match wsCapture rest with
      | some cap => some cap
      | none =>
          if isCRLF c then none
          else some ((c :: rest).takeWhile (fun x => !isCRLF x))

/-- The group captured by `\s*([^\r\n]+)` at the front of `r`, `none` when the
pattern cannot match there. -/
def colonTail (r : List Char) : Option (List Char) :=
  let w := (r.takeWhile isPySpace).length
  let rest := r.drop w
  match rest with
  | _ :: _ => some (rest.takeWhile (fun x => !isCRLF x))
  | [] => wsCapture r

/-- `re.search` of a labeled pattern `Label:\s*([^\r\n]+)` (IGNORECASE): the
first position where the label matches and the tail can follow wins. -/
def searchLabeled (label : List Char) : List Char → Option (List Char)
  | [] => none
  | c :: rest =>
      if ciPre label (c :: rest) then
        match colonTail ((c :: rest).drop label.length) with
        | some cap => some cap
        | none => searchLabeled label rest
      else
        searchLabeled label rest

/-- The `c1@c2` part of a no-colon pattern `Word\s+([^\r\n]+@[^\r\n\s]+)`:
within the CR/LF-free run `seg`, find the rightmost `@` preceded by at least
one character and followed by at least one non-whitespace character (the
greedy `[^\r\n]+` backtracks from the right); the capture runs from the start
of `seg` through the maximal non-whitespace run after that `@`. -/
def atSplit (seg : List Char) : Option (List Char) :=
  match seg with
  | [] => none
  | c :: rest =>
      match atSplit rest with
      | some cap => some (c :: cap)
      | none =>
          match rest with
          | '@' :: r2 =>
              let c2 := r2.takeWhile (fun x => !isPySpace x)
              if c2 ≠ [] then some (c :: '@' :: c2) else none
          | _ => none

/-- The tail of a no-colon pattern at the front of `r`: try `\s+` runs longest
first, then `atSplit` on the CR/LF-free segment that follows. -/
def noColonTail (r : List Char) : Option (List Char) :=
  let n := (r.takeWhile isPySpace).length
  (List.range n).findSome? (fun i =>
    let j := n - i
    atSplit ((r.drop j).takeWhile (fun x => !isCRLF x)))

/-- `re.search` of a no-colon pattern `Word\s+([^\r\n]+@[^\r\n\s]+)`. -/
def searchNoColon (word : List Char) : List Char → Option (List Char)
  | [] => none
  | c :: rest =>
      if ciPre word (c :: rest) then
        match noColonTail ((c :: rest).drop word.length) with
        | some cap => some cap
        | none => searchNoColon word rest
      else
        searchNoColon word rest

/-- One header pattern: `labeled w` stands for `w:\s*([^\r\n]+)` and
`noColon w` for `w\s+([^\r\n]+@[^\r\n\s]+)` (both searched IGNORECASE). -/
inductive HdrPat where
  | labeled (w : String)
  | noColon (w : String)

/-- Run one pattern over the text and strip the captured group, as
`match.group(1).strip()` does. -/
def runPat (text : String) : HdrPat → Option String
  | .labeled w =>
      match searchLabeled (w.data.map Char.toLower ++ [':']) text.data with
      | some cap => some (String.mk (pyStrip cap))
      | none => none
  | .noColon w =>
      match searchNoColon (w.data.map Char.toLower) text.data with
      | some cap => some (String.mk (pyStrip cap))
      | none => none

/-- First pattern with a match wins. -/
def firstPat (pats : List HdrPat) (text : String) : Option String :=
  pats.findSome? (runPat text)

/-- Embeds `OpenInbox.extract_from_field` (src/main.py:465-478). -/
def extract_from_field (text : String) : Option String :=
  firstPat [.labeled "From", .labeled "FROM", .labeled "Sender", .noColon "From"] text

/-- Embeds `OpenInbox.extract_to_field` (src/main.py:480-499); a result
holding a semicolon is cut at the first semicolon and stripped again. -/
def extract_to_field (text : String) : Option String :=
  match firstPat [.labeled "To", .labeled "TO", .labeled "Recipient",
      .noColon "To", .labeled "Cc"] text with
  | none => none
  | some res =>
      if res.data.contains ';' then
        some (String.mk (pyStrip (res.data.takeWhile (fun c => !(c == ';')))))
      else some res

/-- Embeds `OpenInbox.extract_subject_field` (src/main.py:501-514). -/
def extract_subject_field (text : String) : Option String :=
  firstPat [.labeled "Subject", .labeled "SUBJECT", .labeled "Re", .labeled "Subj"] text

/-- Embeds `OpenInbox.extract_date_field` (src/main.py:516-530). -/
def extract_date_field (text : String) : Option String :=
  firstPat [.labeled "Sent", .labeled "Date", .labeled "SENT", .labeled "DATE",
    .labeled "Received"] text

/-- The regex-extracted header fields; a key is present only when the match
was truthy (`if from_match:`), mirroring the dictionary the Python code
builds. -/
structure RegexMeta where
  mfrom : Option String
  mto : Option String
  msubject : Option String
  mdate : Option String
deriving DecidableEq, Repr

/-- Python truthiness gate: a key enters the metadata dict only when the
extracted value is a non-empty string. -/
def keep (v : Option String) : Option String :=
  if truthy v then v else none

/-- Embeds `OpenInbox.extract_email_metadata_from_text` (src/main.py:436-463):
regex extraction over the first 2000 characters of the document text. -/
def extract_email_metadata_from_text (doc_text : String) : RegexMeta :=
  let header_text := String.mk (doc_text.data.take 2000)
  { mfrom := keep (extract_from_field header_text)
    mto := keep (extract_to_field header_text)
    msubject := keep (extract_subject_field header_text)
    mdate := keep (extract_date_field header_text) }

/-! ### Tag-based extraction and the extraction policy -/

/-- A normalized tag map, Python's `tags_dict : Dict[str, str]`. -/
abbrev TagMap := List (String × String)

/-- Python `field in tags_dict` / `tags_dict[field]`. -/
def tagLookup (tags : TagMap) (field : String) : Option String :=
  match tags.find? (fun p => p.1 == field) with
  | some p => some p.2
  | none => none

/-- Embeds `OpenInbox.extract_person_info` (src/main.py:328-337): first field
present whose parsed (email, name) is truthy wins; otherwise keep looking. -/
def extract_person_info (tags : TagMap) : List String → Option String × Option String
  | [] => (none, none)
  | f :: fs =>
      match tagLookup tags f with
      | some v =>
          let r := parse_person_string v
          if truthy r.1 || truthy r.2 then r else extract_person_info tags fs
      | none => extract_person_info tags fs

/-- Embeds `OpenInbox.extract_tag_value` (src/main.py:361-366): the first
present field's value, with no truthiness check. -/
def extract_tag_value (tags : TagMap) : List String → Option String
  | [] => none
  | f :: fs =>
      match tagLookup tags f with
      | some v => some v
      | none => extract_tag_value tags fs

/-- Embeds `OpenInbox.extract_date` (src/main.py:368-379): the first present
field whose value parses to a date wins; a present field that fails to parse
does not stop the scan. -/
def extract_date (tags : TagMap) (date_format : String) : List String → Option DateTime
  | [] => none
  | f :: fs =>
      match tagLookup tags f with
      | some v =>
          match parse_date_string v date_format with
          | some d => some d
          | none => extract_date tags date_format fs
      | none => extract_date tags date_format fs

/-- The metadata produced by the extraction phase of
`OpenInbox.extract_email_record` (src/main.py:260-288), together with a flag
recording whether the regex fallback over the document text ran. -/
structure Meta where
  sender_email : Option String
  sender_name : Option String
  recipient_email : Option String
  recipient_name : Option String
  subject : Option String
  date_sent : Option DateTime
  usedRegex : Bool
deriving DecidableEq, Repr

/-- Embeds the metadata-extraction phase of `OpenInbox.extract_email_record`
(src/main.py:260-288): structured tags first; the regex fallback over the
document text runs only when none of sender email, recipient email, subject
and date was found (`if not any([...])`), and each fallback result fills only
a field still absent. -/
def extract_metadata (tags : TagMap) (doc_text : String) (date_format : String) : Meta :=
  let sp := extract_person_info tags ["from", "sender", "author"]
  let rp := extract_person_info tags ["to", "recipient", "addressee"]
  let subject := extract_tag_value tags ["subject", "title", "topic"]
  let date_sent := extract_date tags date_format ["docdate", "date", "sent", "created", "timestamp"]
  if !(truthy sp.1 || truthy rp.1 || truthy subject || date_sent.isSome) then
    let rm := extract_email_metadata_from_text doc_text
    let sp2 := if !truthy sp.1 then
        match rm.mfrom with
        | some v => parse_person_string v
        | none => sp
      else sp
    let rp2 := if !truthy rp.1 then
        match rm.mto with
        | some v => parse_person_string v
        | none => rp
      else rp
    let subject2 := if !truthy subject then
        match rm.msubject with
        | some v => some v
        | none => subject
      else subject
    let date2 := if !date_sent.isSome then
        match rm.mdate with
        | some v => parse_date_string v date_format
        | none => date_sent
      else date_sent
    { sender_email := sp2.1, sender_name := sp2.2, recipient_email := rp2.1,
      recipient_name := rp2.2, subject := subject2, date_sent := date2,
      usedRegex := true }
  else
    { sender_email := sp.1, sender_name := sp.2, recipient_email := rp.1,
      recipient_name := rp.2, subject := subject, date_sent := date_sent,
      usedRegex := false }

/-! ### Record, preview and the metadata store rows (`create_database`) -/

/-- Embeds the `EmailRecord` dataclass (src/main.py:28-44).  `full_text` is
the bounded search text, `body` the capped body. -/
structure EmailRecord where
  document_id : String
  sender_email : String
  sender_name : String
  recipient_email : String
  recipient_name : String
  subject : String
  body : String
  full_text : String
  date_sent : Option DateTime
  source : String
  document_url : String
  page_count : Nat
  file_type : String
  tags : List String
deriving DecidableEq, Repr

/-- Python `str.split()` on a list of characters: `acc` accumulates the
current word in reverse. -/
def pySplitWsAux (acc : List Char) : List Char → List (List Char)
  | [] => if acc = [] then [] else [acc.reverse]
  | c :: rest =>
      if isPySpace c then
        if acc = [] then pySplitWsAux [] rest
        else acc.reverse :: pySplitWsAux [] rest
      else pySplitWsAux (c :: acc) rest

/-- Python `str.split()` (split on whitespace runs, no empty parts). -/
def pySplitWs (l : List Char) : List (List Char) :=
  pySplitWsAux [] l

/-- Python `str.rfind(c)`: index of the last occurrence, `-1` when absent. -/
def pyRfind (c : Char) (l : List Char) : Int :=
  match l.reverse.findIdx? (· == c) with
  | some i => (l.length : Int) - 1 - i
  | none => -1

/-- Embeds `OpenInbox.generate_preview` (src/main.py:532-555): collapse
whitespace; within the cap return as is; otherwise cut at the last period in
the final 30 characters of the cap, else at the last space in the final 20,
else hard-cut, appending an ellipsis in the latter two cases. -/
def generate_preview (text : String) (max_length : Nat := 100) : String :=
  if text = "" then ""
  else
    let clean_text := List.intercalate [' '] (pySplitWs (pyStrip text.data))
    if clean_text.length ≤ max_length then String.mk clean_text
    else
      let preview := clean_text.take max_length
      let last_period := pyRfind '.' preview
      let last_space := pyRfind ' ' preview
      if last_period > (max_length : Int) - 30 then
        String.mk (preview.take (last_period.toNat + 1))
      else if last_space > (max_length : Int) - 20 then
        String.mk (preview.take last_space.toNat ++ "...".data)
      else
        String.mk (preview ++ "...".data)

/-- The sentinel address the Record Builder uses when no email was found. -/
def unknownSentinel : String := "unknown@documentcloud.org"

/-- One row of the `emails` table as `create_database` inserts it
(src/main.py:652-668).  The `metadata` column is the minimal-metadata JSON
object, modelled by its two fields `(document_url, page_count)`; `date_sent`
is the bound timestamp.  The row has no column for `full_text`. -/
structure EmailsRow where
  document_id : String
  sender_email : String
  sender_name : String
  recipient_email : String
  recipient_name : String
  subject : String
  body : String
  preview : String
  date_sent : Option DateTime
  metadata : String × Nat
deriving DecidableEq, Repr

/-- The `emails` row built from a record in the insertion loop of
`OpenInbox.create_database` (src/main.py:633-668). -/
def emailsRowOf (r : EmailRecord) : EmailsRow :=
  { document_id := r.document_id
    sender_email := r.sender_email
    sender_name := r.sender_name
    recipient_email := r.recipient_email
    recipient_name := r.recipient_name
    subject := r.subject
    body := r.body
    preview := generate_preview r.body
    date_sent := r.date_sent
    metadata := (r.document_url, r.page_count) }

/-- One row of the `email_search` FTS index as `create_database` inserts it
(src/main.py:683-694): document id (unindexed), sender name, sender email,
subject, and the record's `full_text` as `search_content`. -/
structure FtsRow where
  document_id : String
  sender_name : String
  sender_email : String
  subject : String
  search_content : String
deriving DecidableEq, Repr

/-- The FTS row built from a record (src/main.py:683-694). -/
def ftsRowOf (r : EmailRecord) : FtsRow :=
  { document_id := r.document_id
    sender_name := r.sender_name
    sender_email := r.sender_email
    subject := r.subject
    search_content := r.full_text }

/-- One row of the `contacts` table (src/main.py:605-616).  The `name` column
is nullable in the schema, so it is an `Option`. -/
structure Contact where
  email : String
  name : Option String
  display_name : String
  email_count : Nat
  first_seen : Option DateTime
  last_seen : Option DateTime
deriving DecidableEq, Repr

/-- The contacts upsert of `create_database` (src/main.py:674-681):
`INSERT ... ON CONFLICT(email) DO UPDATE SET email_count = email_count + 1,
last_seen = excluded.last_seen, name = COALESCE(contacts.name,
excluded.name)`; `display_name` is only set on first insert, to
`name or email`. -/
def upsertContact (tbl : List Contact) (email : String) (name : Option String)
    (d : Option DateTime) : List Contact :=
  if tbl.any (fun c => c.email == email) then
    tbl.map (fun c =>
      if c.email == email then
        { c with
          email_count := c.email_count + 1
          last_seen := d
          name := match c.name with
            | some n => some n
            | none => name }
      else c)
  else
    tbl ++ [{ email := email
              name := name
              display_name := match name with
                | some n => if n ≠ "" then n else email
                | none => email
              email_count := 1
              first_seen := d
              last_seen := d }]

/-- The per-record contact updates (src/main.py:670-681): sender then
recipient, each skipped when the email is falsy or the sentinel. -/
def contactsStep (tbl : List Contact) (r : EmailRecord) : List Contact :=
  let tbl1 :=
    if r.sender_email ≠ "" ∧ r.sender_email ≠ unknownSentinel then
      upsertContact tbl r.sender_email (some r.sender_name) r.date_sent
    else tbl
  if r.recipient_email ≠ "" ∧ r.recipient_email ≠ unknownSentinel then
    upsertContact tbl1 r.recipient_email (some r.recipient_name) r.date_sent
  else tbl1

/-- The full contacts table produced by one `create_database` call over the
record list, in insertion order. -/
def contactsTable (records : List EmailRecord) : List Contact :=
  records.foldl contactsStep []

/-- Lexicographic order on timestamps, for stating which of two sent-at
values is the later one. -/
def dtLe (a b : DateTime) : Bool :=
  if a.year ≠ b.year then a.year < b.year
  else if a.month ≠ b.month then a.month < b.month
  else if a.day ≠ b.day then a.day < b.day
  else if a.hour ≠ b.hour then a.hour < b.hour
  else if a.minute ≠ b.minute then a.minute < b.minute
  else if a.second ≠ b.second then a.second < b.second
  else a.microsecond ≤ b.microsecond

/-- The later of two optional timestamps (`none` counts as earliest). -/
def laterDT (a b : Option DateTime) : Option DateTime :=
  match a, b with
  | none, b => b
  | a, none => a
  | some x, some y => if dtLe x y then some y else some x

/-! ### The resumable run (`main`, `restore`, `cleanup`) -/

/-- The extraction outcome of one document inside the loop of
`OpenInbox.main` (src/main.py:125-139): `extract_email_record` returned a
record, returned `None` (its internal `except` swallows ordinary errors,
src/main.py:324-326), or the loop body raised and the `except ... continue`
skipped the document. -/
inductive ExtractOutcome where
  | ok (r : EmailRecord)
  | noRecord
  | err
deriving DecidableEq, Repr

/-- A document as the extraction loop sees it: its identifier (`str(doc.id)`)
and what happens when it is processed. -/
structure LoopItem where
  id : String
  outcome : ExtractOutcome
deriving DecidableEq, Repr

/-- Set insertion for `self.processed_doc_ids.add(...)`. -/
def insertSet (l : List String) (x : String) : List String :=
  if x ∈ l then l else l ++ [x]

/-- The loop state: the accumulated `email_records` and the in-memory
`processed_doc_ids`. -/
structure LoopState where
  records : List EmailRecord
  processed : List String
deriving DecidableEq, Repr

/-- One iteration of the extraction loop (src/main.py:125-139): on a built
record, first append it, then add the identifier; on `None` or an exception
the state is unchanged. -/
def loopStep (st : LoopState) (item : LoopItem) : LoopState :=
  match item.outcome with
  | .ok r => { records := st.records ++ [r], processed := insertSet st.processed item.id }
  | .noRecord => st
  | .err => st

/-- The extraction loop over the remaining documents, starting from the
restored checkpoint (src/main.py:124-139). -/
def runLoop (restored : List String) (items : List LoopItem) : LoopState :=
  items.foldl loopStep { records := [], processed := restored }

/-- Embeds `OpenInbox.cleanup` (src/main.py:72-82): the checkpoint file
written on interruption is exactly the in-memory identifier set, and
`timed_out` is set. -/
def cleanup (processed_doc_ids : List String) : List String × Bool :=
  (processed_doc_ids, true)

/-- The filter of `OpenInbox.main` (src/main.py:108) computing the remaining
work set from the restored checkpoint. -/
def remainingDocuments (processed : List String) (docs : List LoopItem) : List LoopItem :=
  docs.filter (fun d => !(processed.contains d.id))

/-- The user-visible outcome of a run, one constructor per `set_message`
terminal of `OpenInbox.main` (src/main.py:84-201). -/
inductive RunMessage where
  | collectionNameRequired
  | noDocumentsFound
  | allAlreadyProcessed
  | noValidRecords
  | ready
  | deploymentFailed
  | errorCaught
deriving DecidableEq, Repr

/-- What a run did: final message, the records extracted this run, the final
in-memory identifier set, whether `create_database` ran, and whether
deployment was attempted. -/
structure RunResult where
  message : RunMessage
  extractedRecords : List EmailRecord
  processed : List String
  dbCreated : Bool
  deployAttempted : Bool
deriving DecidableEq, Repr

/-- Embeds the control flow of `OpenInbox.main` (src/main.py:84-201).
`restored` is the checkpoint `restore()` loaded; `timedOut` is the value of
`self.timed_out` at the deployment guard (src/main.py:165), set by `cleanup`
when the soft timeout fired; `deploySucceeds` abstracts whether
`deploy_to_github` returns a URL.  The local variable `deployed_url` is bound
only inside `if not self.timed_out:`, so on a timed-out run the read at
src/main.py:179 raises `UnboundLocalError`, caught by the blanket handler
(src/main.py:199-201) — modelled by `Option (Option String)`, where `none`
is the unbound state. -/
def mainRun (collection_name : String) (restored : List String)
    (docs : List LoopItem) (timedOut : Bool) (deploySucceeds : Bool) : RunResult :=
  if String.mk (pyStrip collection_name.data) = "" then
    { message := .collectionNameRequired, extractedRecords := [],
      processed := restored, dbCreated := false, deployAttempted := false }
  else if docs = [] then
    { message := .noDocumentsFound, extractedRecords := [],
      processed := restored, dbCreated := false, deployAttempted := false }
  else
    let remaining := remainingDocuments restored docs
    if remaining = [] then
      { message := .allAlreadyProcessed, extractedRecords := [],
        processed := restored, dbCreated := false, deployAttempted := false }
    else
      let st := runLoop restored remaining
      if st.records = [] then
        { message := .noValidRecords, extractedRecords := [],
          processed := st.processed, dbCreated := false, deployAttempted := false }
      else
        let deployed_url : Option (Option String) :=
          if !timedOut then some (if deploySucceeds then some "pages-url" else none)
          else none
        match deployed_url with
        | some (some _) =>
            { message := .ready, extractedRecords := st.records,
              processed := st.processed, dbCreated := true, deployAttempted := true }
        | some none =>
            { message := .deploymentFailed, extractedRecords := st.records,
              processed := st.processed, dbCreated := true, deployAttempted := true }
        | none =>
            { message := .errorCaught, extractedRecords := st.records,
              processed := st.processed, dbCreated := true, deployAttempted := false }

/-! ### The Chunk Planner -/

/-- Modelled from the spec: the Chunk Planner of §4.5 is not part of the
files under src/ (the spec's chunked storage layout has no counterpart in
src/main.py), so its assignment is taken from the spec's words: ordinals
1..N, `chunk_id = (ordinal - 1) div chunk_size`. -/
def chunk_id (ordinal C : Nat) : Nat := (ordinal - 1) / C

/-- Modelled from the spec: chunk count = ceil(N / chunk_size). -/
def chunkCount (N C : Nat) : Nat := (N + C - 1) / C

/-- Modelled from the spec: the inclusive 1-based ordinal range of chunk `k`
(fixed size, final chunk possibly shorter). -/
def chunkRange (N C k : Nat) : Nat × Nat := (C * k + 1, min (C * k + C) N)

/-! ### Concrete records used by individual claims -/

/-- A record whose document text fits under both caps, so the capped body and
the capped search text both equal the full body text (120 characters, longer
than the 100-character preview cap). -/
def rec6 : EmailRecord :=
  { document_id := "DC_6", sender_email := "alice@x.com", sender_name := "Alice",
    recipient_email := "bob@y.com", recipient_name := "Bob",
    subject := "greetings", body := String.mk (List.replicate 120 'a'),
    full_text := String.mk (List.replicate 120 'a'),
    date_sent := some ⟨2020, 1, 1, 0, 0, 0, 0⟩, source := "DocumentCloud",
    document_url := "https://www.documentcloud.org/documents/6", page_count := 1,
    file_type := "pdf", tags := [] }

/-- First record of the contact-aggregation pair: the later timestamp. -/
def recA : EmailRecord :=
  { document_id := "DC_A", sender_email := "alice@x.com", sender_name := "Alice",
    recipient_email := unknownSentinel, recipient_name := "Unknown Recipient",
    subject := "sA", body := "bA", full_text := "fA",
    date_sent := some ⟨2020, 1, 1, 0, 0, 0, 0⟩, source := "DocumentCloud",
    document_url := "", page_count := 1, file_type := "pdf", tags := [] }

/-- Second record of the contact-aggregation pair: the earlier timestamp,
written after `recA`. -/
def recB : EmailRecord :=
  { document_id := "DC_B", sender_email := "alice@x.com", sender_name := "Alice2",
    recipient_email := unknownSentinel, recipient_name := "Unknown Recipient",
    subject := "sB", body := "bB", full_text := "fB",
    date_sent := some ⟨2010, 1, 1, 0, 0, 0, 0⟩, source := "DocumentCloud",
    document_url := "", page_count := 1, file_type := "pdf", tags := [] }

/-- A record for exercising the timed-out run. -/
def recT : EmailRecord :=
  { document_id := "DC_1", sender_email := "a@x.com", sender_name := "A",
    recipient_email := "b@y.com", recipient_name := "B",
    subject := "s", body := "b", full_text := "f",
    date_sent := some ⟨2020, 1, 1, 0, 0, 0, 0⟩, source := "DocumentCloud",
    document_url := "", page_count := 1, file_type := "pdf", tags := [] }

/-- A record for exercising the extraction loop. -/
def rec2 : EmailRecord :=
  { document_id := "DC_7", sender_email := "a@x.com", sender_name := "A",
    recipient_email := "b@y.com", recipient_name := "B",
    subject := "s", body := "b", full_text := "f",
    date_sent := none, source := "DocumentCloud",
    document_url := "", page_count := 1, file_type := "pdf", tags := [] }

/-! ### Shared lemmas -/

theorem mem_insertSet {l : List String} {x i : String} :
    i ∈ insertSet l x ↔ i ∈ l ∨ i = x := by
  unfold insertSet
  split
  · constructor
    · exact fun h => Or.inl h
    · rintro (h | rfl)
      · exact h
      · assumption
  · simp [or_comm]

/-- The extraction-loop invariant: every identifier in the processed set is
either restored from the checkpoint or belongs to a record emitted this run. -/
theorem runLoop_inv (restored : List String) :
    ∀ (items : List LoopItem) (st : LoopState),
      (∀ it ∈ items, ∀ r, it.outcome = .ok r → r.document_id = "DC_" ++ it.id) →
      (∀ i ∈ st.processed, i ∈ restored ∨ ∃ r ∈ st.records, r.document_id = "DC_" ++ i) →
      ∀ i ∈ (items.foldl loopStep st).processed,
        i ∈ restored ∨ ∃ r ∈ (items.foldl loopStep st).records, r.document_id = "DC_" ++ i := by
  intro items
  induction items with
  | nil => intro st _ hinv i hi; exact hinv i hi
  | cons it rest ih =>
      intro st hwf hinv i hi
      refine ih (loopStep st it) (fun x hx => hwf x (List.mem_cons_of_mem _ hx)) ?_ i hi
      intro j hj
      cases hout : it.outcome with
      | ok r =>
          have hdoc := hwf it (List.mem_cons_self _ _) r hout
          simp only [loopStep, hout] at hj ⊢
          rcases mem_insertSet.mp hj with hjold | rfl
          · rcases hinv j hjold with h | ⟨r2, hr2, hid⟩
            · exact Or.inl h
            · exact Or.inr ⟨r2, List.mem_append_left _ hr2, hid⟩
          · exact Or.inr ⟨r, List.mem_append_right _ (List.mem_singleton.mpr rfl), hdoc⟩
      | noRecord =>
          simp only [loopStep, hout] at hj ⊢
          exact hinv j hj
      | err =>
          simp only [loopStep, hout] at hj ⊢
          exact hinv j hj

/-- A document none of whose occurrences succeeds never enters the processed
set. -/
theorem runLoop_not_processed (x : String) :
    ∀ (items : List LoopItem) (st : LoopState),
      (∀ it ∈ items, it.id = x → ∀ r, it.outcome ≠ .ok r) →
      x ∉ st.processed →
      x ∉ (items.foldl loopStep st).processed := by
  intro items
  induction items with
  | nil => intro st _ hx; exact hx
  | cons it rest ih =>
      intro st hfail hx
      refine ih (loopStep st it) (fun y hy => hfail y (List.mem_cons_of_mem _ hy)) ?_
      cases hout : it.outcome with
      | ok r =>
          intro hmem
          simp only [loopStep, hout] at hmem
          rcases mem_insertSet.mp hmem with h | rfl
          · exact hx h
          · exact hfail it (List.mem_cons_self _ _) rfl r hout
      | noRecord => simpa [loopStep, hout] using hx
      | err => simpa [loopStep, hout] using hx

/-- `m / C = k` characterized without division (for a positive divisor). -/
theorem div_eq_iff_bounds {C m k : Nat} (hC : 0 < C) :
    m / C = k ↔ C * k ≤ m ∧ m < C * k + C := by
  constructor
  · rintro rfl
    refine ⟨?_, ?_⟩
    · calc C * (m / C) = m / C * C := Nat.mul_comm _ _
        _ ≤ m := Nat.div_mul_le_self m C
    · have h2 : m / C < m / C + 1 := Nat.lt_succ_self _
      have h3 := (Nat.div_lt_iff_lt_mul hC).mp h2
      calc m < (m / C + 1) * C := h3
        _ = C * (m / C) + C := by ring
  · rintro ⟨hlo, hhi⟩
    have hlo2 : k * C ≤ m := by rw [Nat.mul_comm]; exact hlo
    have hhi2 : m < (k + 1) * C := by
      rw [Nat.add_mul, Nat.one_mul, Nat.mul_comm k C]; exact hhi
    have u1 : k ≤ m / C := (Nat.le_div_iff_mul_le hC).mpr hlo2
    have u2 : m / C < k + 1 := (Nat.div_lt_iff_lt_mul hC).mpr hhi2
    omega

/-- `k` names a produced chunk exactly when its first ordinal exists. -/
theorem lt_chunkCount_iff {N C k : Nat} (hC : 0 < C) :
    k < chunkCount N C ↔ C * k < N := by
  unfold chunkCount
  rw [Nat.lt_iff_add_one_le, Nat.le_div_iff_mul_le hC, Nat.add_mul, Nat.one_mul,
    Nat.mul_comm k C]
  omega

/-- The regex fallback flag equals the negated four-field check of
src/main.py:273. -/
theorem usedRegex_eq (tags : TagMap) (text df : String) :
    (extract_metadata tags text df).usedRegex =
      !(truthy (extract_person_info tags ["from", "sender", "author"]).1 ||
        truthy (extract_person_info tags ["to", "recipient", "addressee"]).1 ||
        truthy (extract_tag_value tags ["subject", "title", "topic"]) ||
        (extract_date tags df ["docdate", "date", "sent", "created", "timestamp"]).isSome) := by
  cases h : (truthy (extract_person_info tags ["from", "sender", "author"]).1 ||
      truthy (extract_person_info tags ["to", "recipient", "addressee"]).1 ||
      truthy (extract_tag_value tags ["subject", "title", "topic"]) ||
      (extract_date tags df ["docdate", "date", "sent", "created", "timestamp"]).isSome) with
  | true => simp [extract_metadata, h]
  | false => simp [extract_metadata, h]

/-! ### Claim theorems -/

/-- C1: when the restored checkpoint already contains every document
identifier of the work set, the run stops at the filtering step with the
"all already processed" message: it extracts zero records, never creates the
metadata store, and leaves the processed set unchanged, so a re-run inserts
nothing. -/
theorem C1_rerun_idempotent (name : String) (restored : List String)
    (docs : List LoopItem) (timedOut deploySucceeds : Bool)
    (hname : String.mk (pyStrip name.data) ≠ "")
    (hdocs : docs ≠ [])
    (hall : ∀ d ∈ docs, d.id ∈ restored) :
    (mainRun name restored docs timedOut deploySucceeds).message = .allAlreadyProcessed ∧
    (mainRun name restored docs timedOut deploySucceeds).extractedRecords = [] ∧
    (mainRun name restored docs timedOut deploySucceeds).dbCreated = false ∧
    (mainRun name restored docs timedOut deploySucceeds).processed = restored := by
  have hrem : remainingDocuments restored docs = [] := by
    simp only [remainingDocuments, List.filter_eq_nil_iff]
    intro d hd
    simp [hall d hd]
  simp [mainRun, hname, hdocs, hrem]

theorem C1_rerun_idempotent_witness :
    (mainRun "col" ["1"] [⟨"1", .noRecord⟩] false false).message = .allAlreadyProcessed ∧
    (mainRun "col" ["1"] [⟨"1", .noRecord⟩] false false).extractedRecords = [] ∧
    (mainRun "col" ["1"] [⟨"1", .noRecord⟩] false false).dbCreated = false ∧
    (mainRun "col" ["1"] [⟨"1", .noRecord⟩] false false).processed = ["1"] :=
  C1_rerun_idempotent "col" ["1"] [⟨"1", .noRecord⟩] false false
    (by decide) (by decide) (by decide)

/-- C2: at every point of the extraction loop (every prefix of the item
list), each identifier in the in-memory processed set either was restored
from the checkpoint or belongs to a record already built and appended this
run — so a checkpoint flushed on interruption never records a document as
done without an emitted record. -/
theorem C2_checkpoint_sound (restored : List String) (items : List LoopItem)
    (hwf : ∀ it ∈ items, ∀ r, it.outcome = .ok r → r.document_id = "DC_" ++ it.id)
    (n : Nat) :
    ∀ i ∈ (runLoop restored (items.take n)).processed,
      i ∈ restored ∨
        ∃ r ∈ (runLoop restored (items.take n)).records, r.document_id = "DC_" ++ i := by
  simp only [runLoop]
  exact runLoop_inv restored (items.take n) _
    (fun it hit => hwf it (List.take_subset n items hit))
    (fun i hi => Or.inl hi)

theorem C2_checkpoint_sound_witness :
    "7" ∈ ([] : List String) ∨
      ∃ r ∈ (runLoop [] (([⟨"7", .ok rec2⟩] : List LoopItem).take 1)).records,
        r.document_id = "DC_" ++ "7" :=
  C2_checkpoint_sound [] [⟨"7", .ok rec2⟩]
    (by rintro it hit r hr
        simp only [List.mem_singleton] at hit
        subst hit
        simp only at hr
        injection hr with h
        subst h
        rfl)
    1 "7" (by decide)

/-- C3: the regex header scan runs exactly when sender email, recipient
email, subject and date are all still absent (falsy) after structured-tag
extraction; with tag map `from ↦ "Carol <c@z.com>"` and raw text holding a
different `From:` header, extraction returns the tag-derived sender
`c@z.com` and the fallback never runs. -/
theorem C3_regex_fallback_trigger :
    (∀ (tags : TagMap) (text df : String),
        ((extract_metadata tags text df).usedRegex = true ↔
          (truthy (extract_person_info tags ["from", "sender", "author"]).1 = false ∧
           truthy (extract_person_info tags ["to", "recipient", "addressee"]).1 = false ∧
           truthy (extract_tag_value tags ["subject", "title", "topic"]) = false ∧
           extract_date tags df ["docdate", "date", "sent", "created", "timestamp"] = none))) ∧
    extract_metadata [("from", "Carol <c@z.com>")]
        "From: mallory@evil.example\nSubject: spoofed\n\nbody" "auto" =
      { sender_email := some "c@z.com", sender_name := some "Carol",
        recipient_email := none, recipient_name := none, subject := none,
        date_sent := none, usedRegex := false } := by
  constructor
  · intro tags text df
    rw [usedRegex_eq]
    cases hd : extract_date tags df ["docdate", "date", "sent", "created", "timestamp"] <;>
      simp [hd, and_assoc]
  · decide

/-- C4: `parse_date_string` tries a non-"auto" hint first; on hint failure or
an "auto" hint it scans the fixed format list and returns the first success;
when nothing matches it returns `none` rather than raising; the two spec
examples evaluate as stated, and the month-first slash format wins over the
day-first one by list order. -/
theorem C4_parse_date_policy :
    (∀ (s hint : String) (d : DateTime), s ≠ "" → hint ≠ "auto" →
        strptime s hint = some d → parse_date_string s hint = some d) ∧
    (∀ s hint : String, s ≠ "" → hint ≠ "auto" → strptime s hint = none →
        parse_date_string s hint = dateFormats.findSome? (strptime s)) ∧
    (∀ s : String, s ≠ "" → parse_date_string s "auto" = dateFormats.findSome? (strptime s)) ∧
    (∀ s : String, (∀ f ∈ dateFormats, strptime s f = none) →
        parse_date_string s "auto" = none) ∧
    parse_date_string "2009-05-02T04:00:00.000Z" "auto" = some ⟨2009, 5, 2, 4, 0, 0, 0⟩ ∧
    parse_date_string "not a date" "auto" = none ∧
    parse_date_string "01/02/2009" "auto" = some ⟨2009, 1, 2, 0, 0, 0, 0⟩ := by
  have hauto : ¬(("auto" : String) ≠ "auto") := fun h => h rfl
  refine ⟨?_, ?_, ?_, ?_, by decide, by decide, by decide⟩
  · intro s hint d hs hh hp
    unfold parse_date_string
    rw [if_neg hs, if_pos hh, hp]
  · intro s hint hs hh hp
    unfold parse_date_string
    rw [if_neg hs, if_pos hh, hp]
  · intro s hs
    unfold parse_date_string
    rw [if_neg hs, if_neg hauto]
  · intro s hall
    have hnone : dateFormats.findSome? (strptime s) = none :=
      List.findSome?_eq_none_iff.mpr hall
    by_cases hs : s = ""
    · unfold parse_date_string
      rw [if_pos hs]
    · unfold parse_date_string
      rw [if_neg hs, if_neg hauto, hnone]

theorem C4_parse_date_policy_witness :
    parse_date_string "2004-11-14" "%Y-%m-%d" = some ⟨2004, 11, 14, 0, 0, 0, 0⟩ :=
  C4_parse_date_policy.1 "2004-11-14" "%Y-%m-%d" ⟨2004, 11, 14, 0, 0, 0, 0⟩
    (by decide) (by decide) (by decide)

/-- C5: `parse_person_string` on `Name <email>` returns the email and the
quote-trimmed name; on a string containing `@` without that pattern it
returns the whole trimmed string as the email; on any other non-empty string
it returns no email and the trimmed name; on empty input it returns
`(none, none)`; the three spec examples evaluate as stated. -/
theorem C5_parse_person_cases :
    parse_person_string "Jane Doe <jane@example.com>" =
      (some "jane@example.com", some "Jane Doe") ∧
    parse_person_string "jane.doe@example.com" =
      (some "jane.doe@example.com", some "Jane Doe") ∧
    parse_person_string "Jane Doe" = (none, some "Jane Doe") ∧
    parse_person_string "" = (none, none) ∧
    (∀ s : String, s ≠ "" → nameEmailScan [] (pyStrip s.data) = none →
        s.data.contains '@' = false →
        parse_person_string s = (none, some (String.mk (pyStrip s.data)))) ∧
    (∀ s : String, s ≠ "" → nameEmailScan [] (pyStrip s.data) = none →
        s.data.contains '@' = true →
        (parse_person_string s).1 = some (String.mk (pyStrip s.data))) := by
  refine ⟨by decide, by decide, by decide, by decide, ?_, ?_⟩
  · intro s hs hscan hat
    have hat2 : ¬('@' ∈ s.data) := by simpa using hat
    unfold parse_person_string
    rw [if_neg hs, hscan]
    simp [hat2]
  · intro s hs hscan hat
    have hat2 : '@' ∈ s.data := by simpa using hat
    unfold parse_person_string
    rw [if_neg hs, hscan]
    simp [hat2]

theorem C5_parse_person_cases_witness :
    parse_person_string "Bob" = (none, some (String.mk (pyStrip "Bob".data))) :=
  C5_parse_person_cases.2.2.2.2.1 "Bob" (by decide) (by decide) (by decide)

set_option maxRecDepth 4000 in
/-- C6 (counterexample): at a record whose document text fits the caps, the
`emails` row carries the record's body — the full body text — and the FTS
row's `search_content` is the search text (again the full body text), not
the preview; so the record table does carry the body and the FTS index does
cover the full body text. -/
theorem C6_counterexample :
    (emailsRowOf rec6).body = rec6.body ∧
    rec6.full_text = rec6.body ∧
    (ftsRowOf rec6).search_content = rec6.full_text ∧
    (ftsRowOf rec6).search_content ≠ generate_preview rec6.body := by
  refine ⟨rfl, rfl, rfl, by decide⟩

/-- C6 (amended): each `emails` row carries the lightweight fields plus the
capped body and the derived preview — but no column for the search text —
and the FTS index covers document id, sender name, sender email, subject and
the capped search text, not the recipient fields and not the preview. -/
theorem C6_store_rows (r : EmailRecord) :
    emailsRowOf r =
      { document_id := r.document_id, sender_email := r.sender_email,
        sender_name := r.sender_name, recipient_email := r.recipient_email,
        recipient_name := r.recipient_name, subject := r.subject, body := r.body,
        preview := generate_preview r.body, date_sent := r.date_sent,
        metadata := (r.document_url, r.page_count) } ∧
    ftsRowOf r =
      { document_id := r.document_id, sender_name := r.sender_name,
        sender_email := r.sender_email, subject := r.subject,
        search_content := r.full_text } :=
  ⟨rfl, rfl⟩

/-- C7 (counterexample): two records with the same sender email where the
first carries the later timestamp produce one contact row with count 2 whose
`last_seen` is the second record's (earlier) timestamp, not the later of the
two. -/
theorem C7_counterexample :
    contactsTable [recA, recB] =
      [{ email := "alice@x.com", name := some "Alice", display_name := "Alice",
         email_count := 2, first_seen := some ⟨2020, 1, 1, 0, 0, 0, 0⟩,
         last_seen := some ⟨2010, 1, 1, 0, 0, 0, 0⟩ }] ∧
    laterDT recA.date_sent recB.date_sent = some ⟨2020, 1, 1, 0, 0, 0, 0⟩ ∧
    (some (⟨2010, 1, 1, 0, 0, 0, 0⟩ : DateTime)) ≠ some ⟨2020, 1, 1, 0, 0, 0, 0⟩ := by
  refine ⟨by decide, by decide, by decide⟩

/-- C7 (amended): two records sharing a non-sentinel sender email (and
sentinel recipients) yield exactly one contact row with participation count
2, `last_seen` equal to the second (most recently written) record's sent-at
value, `first_seen` the first record's, and the name kept from the first
record — the nullable `name` column is backfilled only when previously
absent, and here it never is. -/
theorem C7_contact_aggregation (r1 r2 : EmailRecord) (e : String)
    (h1 : r1.sender_email = e) (h2 : r2.sender_email = e)
    (he1 : e ≠ "") (he2 : e ≠ unknownSentinel)
    (hr1 : r1.recipient_email = unknownSentinel)
    (hr2 : r2.recipient_email = unknownSentinel) :
    contactsTable [r1, r2] =
      [{ email := e, name := some r1.sender_name,
         display_name := if r1.sender_name ≠ "" then r1.sender_name else e,
         email_count := 2, first_seen := r1.date_sent,
         last_seen := r2.date_sent }] := by
  simp only [contactsTable, List.foldl_cons, List.foldl_nil, contactsStep,
    h1, h2, hr1, hr2]
  simp [upsertContact, he1, he2]

theorem C7_contact_aggregation_witness :
    contactsTable [recA, recB] =
      [{ email := "alice@x.com", name := some recA.sender_name,
         display_name := if recA.sender_name ≠ "" then recA.sender_name else "alice@x.com",
         email_count := 2, first_seen := recA.date_sent,
         last_seen := recB.date_sent }] :=
  C7_contact_aggregation recA recB "alice@x.com" rfl rfl
    (by decide) (by decide) rfl rfl

/-- C8: for every chunk size C ≥ 1 and record count N ≥ 0, the planner's
count is ceil(N/C); every ordinal 1..N lands in a chunk below the count and
every chunk id below the count is attained; a chunk id matches an ordinal
exactly when the ordinal lies in that chunk's range, the ranges are nonempty
and consecutive ranges abut — contiguous, non-overlapping, covering 1..N. -/
theorem C8_chunk_planner (N C : Nat) (hC : 1 ≤ C) :
    chunkCount N C = (N + C - 1) / C ∧
    (∀ o, 1 ≤ o → o ≤ N → chunk_id o C < chunkCount N C) ∧
    (∀ k, k < chunkCount N C → ∃ o, 1 ≤ o ∧ o ≤ N ∧ chunk_id o C = k) ∧
    (∀ k o, 1 ≤ o → o ≤ N →
        (chunk_id o C = k ↔ (chunkRange N C k).1 ≤ o ∧ o ≤ (chunkRange N C k).2)) ∧
    (∀ k, k < chunkCount N C → (chunkRange N C k).1 ≤ (chunkRange N C k).2) ∧
    (∀ k, 1 ≤ k → k < chunkCount N C →
        (chunkRange N C k).1 = (chunkRange N C (k - 1)).2 + 1) := by
  have hC0 : 0 < C := hC
  refine ⟨rfl, ?_, ?_, ?_, ?_, ?_⟩
  · intro o ho1 hoN
    rw [lt_chunkCount_iff hC0]
    unfold chunk_id
    have hmul : (o - 1) / C * C ≤ o - 1 := Nat.div_mul_le_self (o - 1) C
    have : C * ((o - 1) / C) ≤ o - 1 := by rw [Nat.mul_comm]; exact hmul
    omega
  · intro k hk
    rw [lt_chunkCount_iff hC0] at hk
    refine ⟨C * k + 1, by omega, by omega, ?_⟩
    unfold chunk_id
    simpa using Nat.mul_div_cancel_left k hC0
  · intro k o ho1 hoN
    unfold chunk_id chunkRange
    rw [div_eq_iff_bounds hC0]
    simp only
    omega
  · intro k hk
    rw [lt_chunkCount_iff hC0] at hk
    unfold chunkRange
    simp only
    omega
  · intro k hk1 hk2
    rw [lt_chunkCount_iff hC0] at hk2
    have hmul : C * (k - 1) + C = C * k := by
      rw [← Nat.mul_succ]
      congr 1
      omega
    unfold chunkRange
    simp only
    omega

theorem C8_chunk_planner_witness :
    chunk_id 5 2 < chunkCount 5 2 :=
  (C8_chunk_planner 5 2 (by decide)).2.1 5 (by decide) (by decide)

/-- C9: at a timed-out run that extracted a record, the code does flush the
checkpoint (`cleanup` writes exactly the processed set) and does skip
deployment, but the run then reads the unbound local `deployed_url`
(src/main.py:179) and ends in the blanket error handler — the final message
is the error message, not an orderly no-error return. -/
theorem C9_timeout_reports_error :
    mainRun "col" [] [⟨"1", .ok recT⟩] true false =
      { message := .errorCaught, extractedRecords := [recT], processed := ["1"],
        dbCreated := true, deployAttempted := false } ∧
    cleanup ["1"] = (["1"], true) :=
  ⟨by decide, rfl⟩

/-- C10: a document whose extraction yields no record (or raises) never has
its identifier added to the processed set, so a checkpoint flushed on
interruption never contains it and every later run of the collection keeps
it in the remaining work set. -/
theorem C10_failed_extraction_reattempted (restored : List String)
    (items : List LoopItem) (d : LoopItem)
    (hd : d ∈ items)
    (hfail : ∀ it ∈ items, it.id = d.id → ∀ r, it.outcome ≠ .ok r)
    (hres : d.id ∉ restored) :
    d.id ∉ (runLoop restored items).processed ∧
    ∀ docs2 : List LoopItem, d ∈ docs2 →
      d ∈ remainingDocuments (runLoop restored items).processed docs2 := by
  have hnp : d.id ∉ (runLoop restored items).processed := by
    simp only [runLoop]
    exact runLoop_not_processed d.id items _ hfail hres
  refine ⟨hnp, ?_⟩
  intro docs2 hmem
  simp only [remainingDocuments, List.mem_filter]
  refine ⟨hmem, ?_⟩
  simpa using hnp

theorem C10_failed_extraction_reattempted_witness :
    "9" ∉ (runLoop [] [⟨"9", .noRecord⟩]).processed ∧
    (⟨"9", .noRecord⟩ : LoopItem) ∈
      remainingDocuments (runLoop [] [⟨"9", .noRecord⟩]).processed [⟨"9", .noRecord⟩] :=
  have h := C10_failed_extraction_reattempted [] [⟨"9", .noRecord⟩] ⟨"9", .noRecord⟩
    (by decide)
    (by rintro it hit _ r hr
        simp only [List.mem_singleton] at hit
        subst hit
        simp at hr)
    (by decide)
  ⟨h.1, h.2 [⟨"9", .noRecord⟩] (by decide)⟩

end OpenInbox
